import Mathlib

/-!
Shallow embedding of the storchastic tensor-wrapping dispatch core
(`src/storch/wrappers.py`) and the ancestral-plate sequence-decoding
subsystem (`src/storch/sampling/seq.py`), together with theorems settling
the claims about them.

Conventions of the embedding:
* Python exceptions are modelled with `Except PyErr`.
* Raw `torch.Tensor` values are modelled as row-major flat data plus a shape.
* The process-wide module state of `storch.wrappers` is an explicit
  `WrapperState` record threaded through the wrapper functions.
* Classes that live in files of the repository that are not part of the
  given sources (`storch/tensor.py`: the base `Plate`, the wrapped `Tensor`
  and its helper methods) are modelled from the spec; each such definition
  carries a doc comment starting with `Modelled from the spec:`.
-/

namespace Storchastic

/-- Python exception values (only the classes the embedded code can raise). -/
inductive PyErr where
  | typeError (msg : String)
  | runtimeError (msg : String)
  | valueError (msg : String)
  | notImplementedError (msg : String)
  | nameError (msg : String)
  | attributeError (msg : String)
  | assertionError
  | indexError
deriving Repr, DecidableEq

/-- A raw `torch.Tensor`: a shape together with row-major flat data and the
autograd flag. -/
structure RawTensor where
  shape : List Nat
  data : List Int
  requiresGrad : Bool := false
deriving Repr, DecidableEq

namespace RawTensor

/-- Number of dimensions (`tensor.ndim`). -/
def ndim (t : RawTensor) : Nat := t.shape.length

/-- Product of a shape (number of elements). -/
def numel (shape : List Nat) : Nat := shape.foldr (fun a b => a * b) 1

/-- Row-major flat index of a multi-index. -/
def ravel : List Nat → List Nat → Nat
  | [], _ => 0
  | _, [] => 0
  | _ :: ss, i :: is => i * numel ss + ravel ss is

/-- All multi-indices of a shape, in row-major order. -/
def allIdx : List Nat → List (List Nat)
  | [] => [[]]
  | s :: ss => (List.range s).flatMap (fun i => (allIdx ss).map (fun is => i :: is))

/-- Element at a multi-index (0 outside range; the embedded code never
reads out of range on tensors it constructs). -/
def atIdx (t : RawTensor) (idx : List Nat) : Int :=
  t.data.getD (ravel t.shape idx) 0

/-- `tensor[(...,) + (None,) * k]`: append `k` trailing singleton axes.
The row-major flat data is unchanged. -/
def unsqueezeTrailing (t : RawTensor) (k : Nat) : RawTensor :=
  { t with shape := t.shape ++ List.replicate k 1 }

/-- `tensor.unsqueeze(i)`: insert a singleton axis at position `i`.
The row-major flat data is unchanged. -/
def unsqueezeAt (t : RawTensor) (i : Nat) : RawTensor :=
  { t with shape := t.shape.take i ++ 1 :: t.shape.drop i }

/-- Swap positions `i` and `j` of a list (used for `transpose`). -/
def swapPos (l : List Nat) (i j : Nat) : List Nat :=
  (List.range l.length).map (fun k =>
    if k = i then l.getD j 0 else if k = j then l.getD i 0 else l.getD k 0)

/-- `tensor.transpose(i, j)`: exchange dimensions `i` and `j`. -/
def transposeDims (t : RawTensor) (i j : Nat) : RawTensor :=
  let newShape := swapPos t.shape i j
  { shape := newShape
    data := (allIdx newShape).map (fun ix => t.atIdx (swapPos ix i j))
    requiresGrad := t.requiresGrad }

/-- `tensor.expand(sizes)`: `-1` keeps a size, a size-1 axis may be
broadcast, any other mismatch is a `RuntimeError`.  The embedded call
sites always pass exactly `ndim` sizes. -/
def expand (t : RawTensor) (sizes : List Int) : Except PyErr RawTensor :=
  if sizes.length ≠ t.ndim then
    .error (.runtimeError "expand: the number of sizes provided must match the tensor dimension")
  else
    let targets := (t.shape.zip sizes).map (fun p => if p.2 = -1 then p.1 else p.2.toNat)
    if (t.shape.zip targets).all (fun p => p.1 = p.2 ∨ p.1 = 1) then
      .ok { shape := targets
            data := (allIdx targets).map (fun ix =>
              t.atIdx ((t.shape.zip ix).map (fun p => if p.1 = 1 then 0 else p.2)))
            requiresGrad := t.requiresGrad }
    else
      .error (.runtimeError "expand: expanded size must match the existing size")

end RawTensor

mutual
/-- A plate: either the base `storch.Plate` (declared in `storch/tensor.py`,
whose attributes `name`, `n`, `parents`, `weight` are modelled from the spec)
or an `AncestralPlate` from `storch/sampling/seq.py` with its extra
attributes `variable_index`, `parent_plate`, `selected_samples`, `log_probs`
and the two mutable flags `_in_recursion` and `_override_equality`. -/
inductive Plate where
  | base (name : String) (n : Nat) (parents : List Plate) (weight : Option RawTensor)
  | anc (name : String) (n : Nat) (parents : List Plate) (weight : Option RawTensor)
      (variableIndex : Nat) (parentPlate : Option Plate)
      (selectedSamples : Option STensor) (logProbs : Option STensor)
      (inRecursion : Bool) (overrideEquality : Bool)

/-- A wrapped `storch.Tensor` (class declared in `storch/tensor.py`;
its attributes are modelled from the spec §3: the raw tensor, the ordered
parent list, the plate list, the stochastic flag and an optional name). -/
inductive STensor where
  | mk (raw : RawTensor) (parents : List STensor) (plates : List Plate)
      (stochastic : Bool) (tname : Option String)
end

namespace Plate

def name : Plate → String
  | .base nm _ _ _ => nm
  | .anc nm _ _ _ _ _ _ _ _ _ => nm

def n : Plate → Nat
  | .base _ k _ _ => k
  | .anc _ k _ _ _ _ _ _ _ _ => k

def isAncestral : Plate → Bool
  | .base .. => false
  | .anc .. => true

/-- `variable_index` of an `AncestralPlate`.  The base `Plate` has no such
attribute (accessing it raises `AttributeError`); every use in the embedding
is guarded by an `isinstance`/`isAncestral` check, so the default 0 for the
base case is never observed. -/
def variableIndex : Plate → Nat
  | .base .. => 0
  | .anc _ _ _ _ vi _ _ _ _ _ => vi

def parentPlate : Plate → Option Plate
  | .base .. => none
  | .anc _ _ _ _ _ pp _ _ _ _ => pp

def inRecursion : Plate → Bool
  | .base .. => false
  | .anc _ _ _ _ _ _ _ _ r _ => r

def overrideEquality : Plate → Bool
  | .base .. => false
  | .anc _ _ _ _ _ _ _ _ _ o => o

/-- Set `_override_equality` (a no-op on the base plate, which has no
such attribute in any reachable code path). -/
def withOverride (p : Plate) (b : Bool) : Plate :=
  match p with
  | .base nm k ps w => .base nm k ps w
  | .anc nm k ps w vi pp ss lp r _ => .anc nm k ps w vi pp ss lp r b

end Plate

namespace STensor

def raw : STensor → RawTensor
  | .mk r _ _ _ _ => r

def parents : STensor → List STensor
  | .mk _ ps _ _ _ => ps

def plates : STensor → List Plate
  | .mk _ _ pl _ _ => pl

def stochastic : STensor → Bool
  | .mk _ _ _ s _ => s

def tname : STensor → Option String
  | .mk _ _ _ _ nm => nm

/-- Replace the plate list (models in-place mutation of `tensor.plates`). -/
def withPlates (t : STensor) (pl : List Plate) : STensor :=
  match t with
  | .mk r ps _ s nm => .mk r ps pl s nm

/-- Modelled from the spec: `Tensor.multi_dim_plates` of `storch/tensor.py`
is the list of plates of size larger than 1 (the plates that materialize a
real leading dimension, §3), in plate-list order. -/
def multiDimPlates (t : STensor) : List Plate :=
  t.plates.filter (fun p => p.n > 1)

/-- Modelled from the spec: `Tensor.plate_dims` is the number of
multi-dimensional plates (the raw tensor's leading dimensions correspond,
in order, to those plates, §3). -/
def plateDims (t : STensor) : Nat := (multiDimPlates t).length

/-- Modelled from the spec: `Tensor.event_dims` is the number of trailing
raw dimensions that are not plate dimensions (§3). -/
def eventDims (t : STensor) : Nat := t.raw.ndim - plateDims t

/-- Modelled from the spec: `Tensor._add_parents` appends the given tensors
to the parent list ("the collected parents are merged into its parent list
rather than replacing it", §4.1; "parent list may be appended to exactly
once", §3). -/
def addParents (t : STensor) (extra : List STensor) : STensor :=
  match t with
  | .mk r ps pl s nm => .mk r (ps ++ extra) pl s nm

end STensor

/-- Modelled from the spec: base `Plate.__eq__` of `storch/tensor.py`:
"two Plates are equal iff same name and same size" (§3). -/
def basePlateEq (a b : Plate) : Bool :=
  a.name == b.name && a.n == b.n

/-- `Plate.__eq__` as dispatched on the left operand.  For an
`AncestralPlate` (seq.py lines 38-45): name-only comparison while
`_override_equality` is set, otherwise the base rule strengthened with
`isinstance(other, AncestralPlate)` and equal `variable_index`. -/
def plateEq (a b : Plate) : Bool :=
  match a with
  | .base .. => basePlateEq a b
  | .anc nm _ _ _ vi _ _ _ _ ovr =>
    if ovr then b.name == nm
    else
      basePlateEq a b && b.isAncestral &&
        (match b with
          | .anc _ _ _ _ vi2 _ _ _ _ _ => vi == vi2
          | .base .. => false)

/-- Python `x in l` membership, which compares with `l[i] == x`
(the element's `__eq__` on the left). -/
def plateMem (l : List Plate) (x : Plate) : Bool :=
  l.any (fun e => plateEq e x)

/-! ### `AncestralPlate.on_collecting_args` (seq.py lines 52-71) -/

/-- The scan that `AncestralPlate.on_collecting_args` performs over the
collected plate list: the first plate with the same name that is not an
`AncestralPlate` raises a `ValueError`; the first one with a strictly
higher `variable_index` makes the method return `False`; otherwise it
returns `True`.  (The loop reads only immutable attributes, so it is
modelled as a pure scan.) -/
def collectScan (selfName : String) (selfVi : Nat) : List Plate → Except PyErr Bool
  | [] => .ok true
  | p :: rest =>
    if p.name == selfName then
      if !p.isAncestral then
        .error (.valueError ("Received a plate with name " ++ p.name ++
          " that is not also an AncestralPlate."))
      else if p.variableIndex > selfVi then
        .ok false
      else collectScan selfName selfVi rest
    else collectScan selfName selfVi rest

/-- `Plate.on_collecting_args`.  The base plate (modelled from the spec:
the hook exists so that subclasses can filter themselves, wrappers.py line
141) keeps itself and mutates nothing.  The `AncestralPlate` override
(seq.py lines 52-71) first sets `_override_equality` when the plate is
`_in_recursion`, then scans the collected plates.  The result is the
(possibly mutated) plate together with the keep/drop decision. -/
def onCollectingArgs (self : Plate) (plates : List Plate) :
    Except PyErr (Plate × Bool) :=
  match self with
  | .base nm k ps w => .ok (.base nm k ps w, true)
  | .anc nm k ps w vi pp ss lp r ovr =>
    let self' : Plate := .anc nm k ps w vi pp ss lp r (if r then true else ovr)
    (collectScan nm vi plates).map (fun keep => (self', keep))

/-- The plate filter of `_prepare_args` (wrappers.py lines 141-142):
`plates = list(filter(lambda p: p.on_collecting_args(plates), plates))`.
Each plate votes on the full collected list; the kept entries are the
(possibly mutated) plates whose vote was `True`. -/
def prepFilterPlates (plates : List Plate) : Except PyErr (List Plate) :=
  go plates
where
  go : List Plate → Except PyErr (List Plate)
    | [] => .ok []
    | p :: rest => do
      let (p', keep) ← onCollectingArgs p plates
      let rest' ← go rest
      .ok (if keep then p' :: rest' else rest')

/-! ### `AncestralPlate.on_unwrap_tensor` (seq.py lines 73-115) -/

/-- Keyword names `_prepare_args` (wrappers.py lines 110-117) accepts
besides its two positional parameters. -/
def prepareArgsAccepted : List String :=
  ["unwrap", "align_tensors", "dim", "dims"]

/-- Binding the keyword arguments that a `@deterministic(...)` wrapper
forwards to `_prepare_args` (wrappers.py line 223): any keyword outside the
accepted set raises `TypeError` at the call. -/
def prepareArgsBindCheck (kws : List String) : Except PyErr Unit :=
  match kws.find? (fun k => !(prepareArgsAccepted.contains k)) with
  | some k => .error (.typeError
      ("prepare_args got an unexpected keyword argument " ++ k))
  | none => .ok ()

/-- The `while` loop of `on_unwrap_tensor` (seq.py lines 96-98): walk the
`parent_plate` chain from the resolving plate down to the target
`variable_index`, collecting the intermediate plates.  Reaching a plate
without a `variable_index`/`parent_plate` attribute (`None` or a base
plate) raises `AttributeError` as in Python. -/
def chainWalk : Option Plate → Nat → List Plate → Except PyErr (List Plate × Plate)
  | none, _, _ => .error (.attributeError "NoneType object has no attribute variable_index")
  | some p, target, acc =>
    match p with
    | .base .. => .error (.attributeError "Plate object has no attribute variable_index")
    | .anc nm k ps w vi pp ss lp r ovr =>
      if vi == target then .ok (acc, .anc nm k ps w vi pp ss lp r ovr)
      else chainWalk pp target (acc ++ [.anc nm k ps w vi pp ss lp r ovr])

/-- The gather loop of `on_unwrap_tensor` (seq.py lines 102-113).  Its
first iteration calls `expand_with_ignore_as`, whose `@deterministic`
wrapper forwards `expand_plates=True` to `_prepare_args`; that keyword is
not accepted (wrappers.py lines 110-117), so argument binding raises
`TypeError` before anything else runs.  (`on_unwrap_tensor` only executes
while no stochastic context is open, so the wrapper's guard passes.)  The
`.ok` branch of the bind check is unreachable — see
`prepareArgsBindCheck_expand_plates`. -/
def gatherLoop (parentPlates : List Plate) (tensor : STensor) : Except PyErr STensor :=
  match parentPlates with
  | [] => .ok tensor
  | _ :: _ =>
    match prepareArgsBindCheck ["expand_plates"] with
    | .error e => .error e
    | .ok _ => .error (.runtimeError "unreachable: expand_plates is always rejected")

/-- The scan of `on_unwrap_tensor` over `tensor.multi_dim_plates()`
(seq.py lines 83-114), for a resolving `AncestralPlate` with name
`selfName`, index `selfVi`, parent chain starting at `selfPlate`. -/
def unwrapScan (selfPlate : Plate) (selfName : String) (selfVi : Nat)
    (tensor : STensor) : List Plate → Except PyErr STensor
  | [] => .ok tensor
  | p :: rest =>
    if p.name == selfName then
      if !p.isAncestral then .error .assertionError
      else if p.variableIndex == selfVi then .ok tensor
      else if !(p.variableIndex < selfVi) then .error .assertionError
      else do
        let (parentPlates, current) ← chainWalk (some selfPlate) p.variableIndex []
        if !(plateEq current p) then .error .assertionError
        else gatherLoop parentPlates.reverse tensor
    else unwrapScan selfPlate selfName selfVi tensor rest

/-- `AncestralPlate.on_unwrap_tensor` (seq.py lines 73-115).  Inside a
re-entrant window the tensor passes through unchanged; otherwise the first
same-named multi-dimensional plate of the tensor decides: equal
`variable_index` returns the tensor unchanged, a lower index enters the
re-indexing branch (which cannot complete, see `gatherLoop`).  The base
plate's hook (modelled from the spec: a pass-through default that
subclasses override, wrappers.py line 64) returns the tensor unchanged.
The flag mutations of the re-indexing branch are unobservable because that
branch always raises, so the function returns only the tensor. -/
def onUnwrapTensor (self : Plate) (tensor : STensor) : Except PyErr STensor :=
  match self with
  | .base .. => .ok tensor
  | .anc nm k ps w vi pp ss lp r ovr =>
    if r then .ok tensor
    else unwrapScan (.anc nm k ps w vi pp ss lp r ovr) nm vi tensor
      (STensor.multiDimPlates tensor)

/-! ### Argument values and `_collect_parents_and_plates` (wrappers.py lines 21-53) -/

/-- A Python value that can appear among the arguments of a wrapped call:
a wrapped `storch.Tensor`, a raw `torch.Tensor`, a string, an ordered
sequence, a string-keyed mapping, `None`, or an integer. -/
inductive Arg where
  | tensor (t : STensor)
  | raw (r : RawTensor)
  | str (s : String)
  | list (xs : List Arg)
  | dict (xs : List (String × Arg))
  | none
  | int (i : Int)

/-- `is_iterable` (wrappers.py lines 21-27): an `Iterable` that is not a
raw tensor, a string or a storage.  A Python `dict` is `Iterable` (it
iterates over its keys), so the mapping case answers `true` here — which
makes the explicit `Mapping` branches of `_collect_parents_and_plates` and
`_unsqueeze_and_unwrap` unreachable for `dict` arguments. -/
def isIterable : Arg → Bool
  | .list _ => true
  | .dict _ => true
  | _ => false

/-- State threaded by `_collect_parents_and_plates`: the growing `parents`
and `plates` lists (mutated in place in the source). -/
structure CollectAcc where
  parents : List STensor
  plates : List Plate

/-- Deduplicating plate insert of `_collect_parents_and_plates` (wrappers.py
lines 35-37): `if plate not in plates: plates.append(plate)`, with Python
membership comparing `plates[i] == plate`. -/
def insertPlate (plates : List Plate) (p : Plate) : List Plate :=
  if plateMem plates p then plates else plates ++ [p]

/-- The iterable branch of `_collect_parents_and_plates` applied to a
`dict`: iteration yields the keys, plain strings, each of which falls to
the atomic `return 0` case — so the accumulator is unchanged and the
maximum event dimension contributed is 0. -/
def collectKeys (keys : List String) (acc : CollectAcc) : CollectAcc × Nat :=
  match keys with
  | [] => (acc, 0)
  | _ :: rest =>
    let (acc2, d2) := collectKeys rest acc
    (acc2, max 0 d2)

mutual
/-- `_collect_parents_and_plates` (wrappers.py lines 30-53): recursively
collect every wrapped tensor and the union of their plates, returning the
maximum `event_dims` seen.  A `dict` takes the iterable branch and is
iterated over its keys (strings), so tensors stored as mapping values are
never collected; the source's `Mapping` branch (line 46) is unreachable
for `dict` and has no corresponding case here. -/
def collectParentsAndPlates (a : Arg) (acc : CollectAcc) : CollectAcc × Nat :=
  match a with
  | .tensor t =>
    ({ parents := acc.parents ++ [t]
       plates := t.plates.foldl insertPlate acc.plates }, t.eventDims)
  | .list xs => collectList xs acc
  | .dict xs => collectKeys (xs.map Prod.fst) acc
  | _ => (acc, 0)

def collectList (xs : List Arg) (acc : CollectAcc) : CollectAcc × Nat :=
  match xs with
  | [] => (acc, 0)
  | x :: rest =>
    let (acc1, d1) := collectParentsAndPlates x acc
    let (acc2, d2) := collectList rest acc1
    (acc2, max d1 d2)
end

/-! ### `_unsqueeze_and_unwrap` (wrappers.py lines 56-107) -/

/-- The plate-reordering loop of `_unsqueeze_and_unwrap` (wrappers.py
lines 74-84): walk the canonical `multi_dim_plates`; each plate already
present in the tensor's own plate links is transposed into the next
recognized position. -/
def reorderLoop (mdp : List Plate) (tensor : RawTensor) (links : List Plate)
    (amtRecognized : Nat) : RawTensor × List Plate :=
  match mdp with
  | [] => (tensor, links)
  | plate :: rest =>
    if plateMem links plate then
      let lk := links.getD amtRecognized (.base "" 0 [] Option.none)
      if !(plateEq plate lk) then
        let j := (links.findIdx? (fun e => plateEq e plate)).getD 0
        let tensor' := tensor.transposeDims j amtRecognized
        let links' := (links.set amtRecognized (links.getD j (.base "" 0 [] Option.none))).set j lk
        reorderLoop rest tensor' links' (amtRecognized + 1)
      else
        reorderLoop rest tensor links (amtRecognized + 1)
    else
      reorderLoop rest tensor links amtRecognized

/-- The singleton-insertion loop of `_unsqueeze_and_unwrap` (wrappers.py
lines 86-88): unsqueeze position `i` for every canonical plate missing
from the tensor's plate list. -/
def unsqueezeLoop (mdp : List Plate) (tensorPlates : List Plate)
    (tensor : RawTensor) (i : Nat) : RawTensor :=
  match mdp with
  | [] => tensor
  | plate :: rest =>
    if !(plateMem tensorPlates plate) then
      unsqueezeLoop rest tensorPlates (tensor.unsqueezeAt i) (i + 1)
    else
      unsqueezeLoop rest tensorPlates tensor (i + 1)

/-- The wrapped-tensor case of `_unsqueeze_and_unwrap` (wrappers.py lines
59-89): let every canonical plate rewrite the tensor via
`on_unwrap_tensor`, then right-pad event dimensions, reorder the plate
axes into canonical order and insert singleton axes for absent plates. -/
def unsqueezeTensor (t : STensor) (mdp : List Plate) (alignTensors : Bool)
    (eventDims : Nat) : Except PyErr RawTensor := do
  if !alignTensors then
    .ok t.raw
  else
    let a ← mdp.foldlM (fun a plate => onUnwrapTensor plate a) t
    let tensor := a.raw
    let tensor := if a.eventDims < eventDims then
        tensor.unsqueezeTrailing (eventDims - a.eventDims)
      else tensor
    let (tensor, _) := reorderLoop mdp tensor (STensor.multiDimPlates a) 0
    .ok (unsqueezeLoop mdp a.plates tensor 0)

mutual
/-- `_unsqueeze_and_unwrap` (wrappers.py lines 56-107).  As in
`_collect_parents_and_plates`, a `dict` takes the iterable branch: it is
iterated over its keys, plain strings that pass through the atomic case
unchanged, so the result is the list of its keys; atomic values pass
through unchanged. -/
def unsqueezeAndUnwrap (a : Arg) (mdp : List Plate) (alignTensors : Bool)
    (eventDims : Nat) : Except PyErr Arg :=
  match a with
  | .tensor t => (unsqueezeTensor t mdp alignTensors eventDims).map Arg.raw
  | .list xs => (unsqueezeList xs mdp alignTensors eventDims).map Arg.list
  | .dict xs => .ok (.list (xs.map (fun kv => Arg.str kv.1)))
  | other => .ok other

def unsqueezeList (xs : List Arg) (mdp : List Plate) (alignTensors : Bool)
    (eventDims : Nat) : Except PyErr (List Arg) :=
  match xs with
  | [] => .ok []
  | x :: rest => do
    let x' ← unsqueezeAndUnwrap x mdp alignTensors eventDims
    let rest' ← unsqueezeList rest mdp alignTensors eventDims
    .ok (x' :: rest')
end

/-! ### `_prepare_args` (wrappers.py lines 110-179) -/

/-- The keyword options a `@deterministic`/`@stochastic` wrapper passes on
to `_prepare_args`, together with any keyword names that `_prepare_args`
does not accept (`extraKwargs`, which make Python's argument binding raise
`TypeError`). -/
structure PrepOptions where
  unwrap : Bool := true
  alignTensors : Bool := true
  dim : Option String := Option.none
  dims : Option (List String) := Option.none
  extraKwargs : List String := []

/-- Result of `_prepare_args`: processed positional arguments, processed
keyword arguments, collected parents, filtered plates. -/
structure Prepared where
  fnArgs : List Arg
  fnKwargs : List (String × Arg)
  parents : List STensor
  plates : List Plate

/-- Set a key of a Python dict modelled as an association list. -/
def dictSet (d : List (String × Arg)) (k : String) (v : Arg) : List (String × Arg) :=
  if d.any (fun kv => kv.1 == k) then
    d.map (fun kv => if kv.1 == k then (k, v) else kv)
  else d ++ [(k, v)]

/-- The `dim` block of `_prepare_args` (wrappers.py lines 150-155): find
the named plate among the multi-dimensional plates and bind `i_dim` to its
position; if the name is absent, `i_dim` stays unbound and the subsequent
use raises `NameError`.  Returns the updated kwargs and the binding of
`i_dim` (also consulted by the `dims` block).  An empty string is falsy in
Python, so it skips the block like `None`. -/
def resolveDimKw (dim : Option String) (mdp : List Plate)
    (kwargs : List (String × Arg)) :
    Except PyErr (List (String × Arg) × Option Nat) :=
  match dim with
  | Option.none => .ok (kwargs, Option.none)
  | some d =>
    if d == "" then .ok (kwargs, Option.none)
    else
      match mdp.findIdx? (fun p => p.name == d) with
      | some i => .ok (dictSet kwargs "dim" (Arg.int i), some i)
      | Option.none => .error (.nameError "name i_dim is not defined")

/-- The `dims` block of `_prepare_args` (wrappers.py lines 156-164).  The
source raises unconditionally inside the loop over `dims`: on the first
name, if a plate matches, it appends `i_dim` (a `NameError` when the `dim`
block did not bind it) and then — found or not — reaches the
unconditional `raise ValueError("Missing plate dimension" + dim)`.  Only
an empty (falsy) `dims` skips the block, leaving the kwargs untouched. -/
def resolveDimsKw (dims : Option (List String)) (iDim : Option Nat)
    (mdp : List Plate) (kwargs : List (String × Arg)) :
    Except PyErr (List (String × Arg)) :=
  match dims with
  | Option.none => .ok kwargs
  | some [] => .ok kwargs
  | some (d :: _) =>
    match mdp.findIdx? (fun p => p.name == d) with
    | some _ =>
      match iDim with
      | some _ => .error (.valueError ("Missing plate dimension" ++ d))
      | Option.none => .error (.nameError "name i_dim is not defined")
    | Option.none => .error (.valueError ("Missing plate dimension" ++ d))

/-- `_prepare_args` (wrappers.py lines 110-179).  Keyword binding first
(unknown keywords raise `TypeError`), then parent/plate collection over the
positional tuple and over the kwargs dict (whose iteration yields only its
keys), the `on_collecting_args` plate filter, the multi-dimensional plate
selection, the `dim`/`dims` substitution, and finally unwrapping and
alignment of every argument. -/
def prepareArgs (fnArgs : List Arg) (fnKwargs : List (String × Arg))
    (opts : PrepOptions) : Except PyErr Prepared := do
  let _ ← prepareArgsBindCheck opts.extraKwargs
  let (acc1, d1) := collectParentsAndPlates (.list fnArgs) ⟨[], []⟩
  let (acc2, d2) := collectParentsAndPlates (.dict fnKwargs) acc1
  let maxEventDim := max d1 d2
  let plates ← prepFilterPlates acc2.plates
  let mdp := plates.filter (fun p => p.n > 1)
  let (fnKwargs1, iDim) ← resolveDimKw opts.dim mdp fnKwargs
  let fnKwargs2 ← resolveDimsKw opts.dims iDim mdp fnKwargs1
  if opts.unwrap then
    let newArgs ← unsqueezeList fnArgs mdp opts.alignTensors maxEventDim
    let newKwargs ← fnKwargs2.foldrM (fun kv acc => do
      let v' ← unsqueezeAndUnwrap kv.2 mdp opts.alignTensors maxEventDim
      .ok ((kv.1, v') :: acc)) []
    .ok ⟨newArgs, newKwargs, acc2.parents, plates⟩
  else
    .ok ⟨fnArgs, fnKwargs2, acc2.parents, plates⟩

/-! ### The wrapper dispatch core (wrappers.py lines 182-365) -/

/-- The process-wide module state of `storch.wrappers` (lines 11-16). -/
structure WrapperState where
  contextStochastic : Bool := false
  contextDeterministic : Nat := 0
  stochasticParents : List STensor := []
  contextName : Option String := Option.none
  plateLinks : List Plate := []
  ignoreWrap : Bool := false

/-- Result of running a wrapped call: the returned value or exception, the
module state after the call, and how many times the wrapped function was
invoked (instrumentation used to state that guards prevent invocation). -/
structure Outcome where
  result : Except PyErr Arg
  state : WrapperState
  fnCalls : Nat

/-- `_process_deterministic` (wrappers.py lines 182-199). -/
def processDeterministic (o : Arg) (parents : List STensor) (plates : List Plate)
    (nm : String) : Except PyErr Arg :=
  match o with
  | .none => .ok .none
  | .tensor t =>
    if t.stochastic then
      .error (.runtimeError "Creation of stochastic storch Tensor within deterministic context")
    else .ok (.tensor t)
  | .raw r => .ok (.tensor (.mk r parents plates false (some nm)))
  | _ => .error (.notImplementedError
      "Handling of other types of return values is currently not implemented")

/-- The loop of `_deterministic` over iterable outputs (wrappers.py lines
246-254), naming each output `fn.__name__ + str(len(n_outputs))`. -/
def processDetList (os : List Arg) (parents : List STensor) (plates : List Plate)
    (fnName : String) (idx : Nat) : Except PyErr (List Arg) :=
  match os with
  | [] => .ok []
  | o :: rest => do
    let v ← processDeterministic o parents plates (fnName ++ toString idx)
    let rest' ← processDetList rest parents plates fnName (idx + 1)
    .ok (v :: rest')

/-- Output processing of `_deterministic` (wrappers.py lines 246-257).
A `dict` output takes the iterable branch and is iterated over its keys:
strings, which `_process_deterministic` rejects. -/
def processDetOutputs (outputs : Arg) (parents : List STensor)
    (plates : List Plate) (fnName : String) : Except PyErr Arg :=
  match outputs with
  | .list os => (processDetList os parents plates fnName 0).map Arg.list
  | .dict kvs =>
    (processDetList (kvs.map (fun kv => Arg.str kv.1)) parents plates fnName 0).map Arg.list
  | o => processDeterministic o parents plates fnName

/-- The wrapper produced by `_deterministic` (wrappers.py lines 202-259).
`fn` is the wrapped function, modelled as a pure function of the prepared
arguments; `opts.extraKwargs` are any wrapper keywords that
`_prepare_args` does not accept (they raise `TypeError` at the forwarding
call, line 223).  A falsy (empty) `reduce_plates` list skips the plate
reduction as in Python. -/
def runDeterministic (fnName : String) (reducePlates : Option (List String))
    (opts : PrepOptions) (fn : List Arg → List (String × Arg) → Except PyErr Arg)
    (st : WrapperState) (args : List Arg) (kwargs : List (String × Arg)) :
    Outcome :=
  if st.contextStochastic then
    ⟨.error (.notImplementedError
      "It is currently not allowed to open a deterministic context in a stochastic context"),
      st, 0⟩
  else
    match prepareArgs args kwargs opts with
    | .error e => ⟨.error e, st, 0⟩
    | .ok prep =>
      if prep.parents.isEmpty then
        ⟨fn args kwargs, st, 1⟩
      else
        let st1 := { st with contextDeterministic := st.contextDeterministic + 1 }
        let r := fn prep.fnArgs prep.fnKwargs
        let st2 := { st1 with contextDeterministic := st1.contextDeterministic - 1 }
        match r with
        | .error e => ⟨.error e, st2, 1⟩
        | .ok outputs =>
          if st2.ignoreWrap then ⟨.ok outputs, st2, 1⟩
          else
            let plates := match reducePlates with
              | some rp => if rp.isEmpty then prep.plates
                  else prep.plates.filter (fun p => !(rp.contains p.name))
              | Option.none => prep.plates
            ⟨processDetOutputs outputs prep.parents plates fnName, st2, 1⟩

/-- `_process_stochastic` (wrappers.py lines 302-319).  The repair case
for an already-wrapped non-stochastic output reads the module-level
`_stochastic_parents` — the state as it is at processing time. -/
def processStochastic (o : Arg) (parents : List STensor) (plates : List Plate)
    (st : WrapperState) : Except PyErr Arg :=
  match o with
  | .tensor t =>
    if !t.stochastic then .ok (.tensor (t.addParents st.stochasticParents))
    else .ok (.tensor t)
  | .raw r => .ok (.tensor (.mk r parents plates false Option.none))
  | _ => .error (.typeError
      "All outputs of functions wrapped in storch.stochastic should be Tensors.")

/-- Output processing of `stochastic` (wrappers.py lines 356-363). -/
def processStochOutputs (outputs : Arg) (parents : List STensor)
    (plates : List Plate) (st : WrapperState) : Except PyErr Arg :=
  match outputs with
  | .list os => (os.mapM (fun o => processStochastic o parents plates st)).map Arg.list
  | .dict kvs =>
    ((kvs.map (fun kv => Arg.str kv.1)).mapM
      (fun o => processStochastic o parents plates st)).map Arg.list
  | o => processStochastic o parents plates st

/-- The wrapper produced by `stochastic` (wrappers.py lines 322-365).  The
source forwards the wrapper's two positional arguments to the `fn_args`
and `fn_kwargs` parameters of `_prepare_args` (line 341), so the wrapped
function is called with an argument tuple and a kwargs dict; the model
takes those two directly.  The `try/finally` resets the four stochastic
context fields before the outputs are processed. -/
def runStochastic (fnName : String)
    (fn : List Arg → List (String × Arg) → Except PyErr Arg)
    (st : WrapperState) (fnArgs : List Arg) (fnKwargs : List (String × Arg)) :
    Outcome :=
  if st.contextStochastic || st.contextDeterministic > 0 then
    ⟨.error (.runtimeError
      "Cannot call storch.stochastic from within a stochastic or deterministic context."),
      st, 0⟩
  else
    match prepareArgs fnArgs fnKwargs {} with
    | .error e => ⟨.error e, st, 0⟩
    | .ok prep =>
      let st1 := { st with
        plateLinks := prep.plates
        stochasticParents := prep.parents
        contextStochastic := true
        contextName := some fnName }
      let r := fn prep.fnArgs prep.fnKwargs
      let st2 := { st1 with
        plateLinks := []
        stochasticParents := []
        contextStochastic := false
        contextName := Option.none }
      match r with
      | .error e => ⟨.error e, st2, 1⟩
      | .ok outputs =>
        ⟨processStochOutputs outputs prep.parents prep.plates st2, st2, 1⟩

/-! ### `right_expand_as` (seq.py lines 541-546) -/

/-- The body of `right_expand_as`: right-pad with singleton axes to the
reference's rank, then expand exactly the new axes to the reference's
trailing sizes. -/
def rawRightExpand (t e : RawTensor) : Except PyErr RawTensor :=
  let diff : Int := (e.ndim : Int) - (t.ndim : Int)
  let padded := t.unsqueezeTrailing diff.toNat
  padded.expand (List.replicate t.ndim (-1) ++ (e.shape.drop t.ndim).map Int.ofNat)

/-- The body of `right_expand_as` as the function handed to the
`@storch.deterministic(l_broadcast=False)` decorator. -/
def rightExpandInner : List Arg → List (String × Arg) → Except PyErr Arg :=
  fun args _ =>
    match args with
    | [.raw t, .raw e] => (rawRightExpand t e).map Arg.raw
    | _ => .error (.typeError "right_expand_as expects two tensors")

/-- Calling `right_expand_as(tensor, expand_as)`: the decorator forwards
the unsupported keyword `l_broadcast` to `_prepare_args`. -/
def rightExpandAs (st : WrapperState) (tensor expandAs : Arg) : Outcome :=
  runDeterministic "right_expand_as" Option.none { extraKwargs := ["l_broadcast"] }
    rightExpandInner st [tensor, expandAs] []

/-! ### `SequenceDecoding`: plate creation and the tail of `sample`
(seq.py lines 118-398) -/

/-- The per-method mutable state of `SequenceDecoding` (seq.py lines
126-140), as it stands right after the `decode` call inside `sample`
(lines 315-323): `jointLogProbs` and `parentIndexing` already hold the
decode outputs. -/
structure SeqDecState where
  plateName : String
  k : Nat
  jointLogProbs : Option STensor
  parentIndexing : Option STensor
  variableIndex : Nat
  lastPlate : Option Plate

/-- The chain-invariant `assert` of `AncestralPlate.__init__` (seq.py
lines 26-28), evaluated with Python's short-circuit semantics, including
the `AttributeError`s a `None` or base-plate parent would raise. -/
def ancestralAssert (n : Nat) (variableIndex : Nat)
    (parentPlate : Option Plate) : Except PyErr Unit :=
  if parentPlate.isNone && variableIndex == 0 then .ok ()
  else
    match parentPlate with
    | Option.none => .error (.attributeError "NoneType object has no attribute n")
    | some pp =>
      if pp.n ≤ n then
        match pp with
        | .base .. => .error (.attributeError "Plate object has no attribute variable_index")
        | .anc .. =>
          if pp.variableIndex < variableIndex then .ok ()
          else .error .assertionError
      else .error .assertionError

/-- `AncestralPlate.__init__` (seq.py lines 14-36): the base-plate
initialization, the chain-invariant assertion, then the wrapping of
`log_probs` into a tensor depending on the given one.  The source appends
the plate itself to that tensor's plate list, creating a reference cycle;
the pure model stores the wrapped tensor without the trailing
self-reference. -/
def mkAncestralPlate (nm : String) (n : Nat) (parents : List Plate)
    (variableIndex : Nat) (parentPlate : Option Plate)
    (selectedSamples : Option STensor) (logProbs : Option STensor)
    (weight : Option RawTensor) : Except PyErr Plate :=
  match ancestralAssert n variableIndex parentPlate with
  | .error e => .error e
  | .ok _ =>
    match logProbs with
    | Option.none => .error (.attributeError "NoneType object has no attribute _tensor")
    | some lp =>
      let lpT : STensor := .mk lp.raw [lp] lp.plates false Option.none
      .ok (.anc nm n parents weight variableIndex parentPlate selectedSamples
        (some lpT) false false)

/-- `SequenceDecoding.create_plate` (seq.py lines 388-398). -/
def createPlate (st : SeqDecState) (plateSize : Nat) (plates : List Plate) :
    Except PyErr Plate :=
  mkAncestralPlate st.plateName plateSize plates st.variableIndex st.lastPlate
    st.parentIndexing st.jointLogProbs Option.none

/-- Python `list.remove(x)` (used at seq.py line 340): drop the first
element comparing equal to `x`; raise `ValueError` when none does. -/
def pyRemove : List Plate → Plate → Except PyErr (List Plate)
  | [], _ => .error (.valueError "list.remove(x): x not in list")
  | p :: rest, x =>
    if plateEq p x then .ok rest else (pyRemove rest x).map (fun l => p :: l)

/-- The effective gradient requirement of the produced stochastic tensor:
`requires_grad or self.joint_log_probs.requires_grad` with Python's
short-circuit evaluation (a missing `joint_log_probs` only raises when the
left operand is falsy). -/
def effectiveGrad (requiresGrad : Bool) (jointLogProbs : Option STensor) :
    Except PyErr Bool :=
  if requiresGrad then .ok true
  else
    match jointLogProbs with
    | some lp => .ok lp.raw.requiresGrad
    | Option.none => .error (.attributeError "NoneType object has no attribute requires_grad")

/-- The `plates.remove(to_remove)` step of `sample` (seq.py lines 334-340):
drop the first plate named `plate_name`, when there is one. -/
def removeFirstNamed (st : SeqDecState) (plates : List Plate) :
    Except PyErr (List Plate) :=
  match plates.find? (fun p => p.name == st.plateName) with
  | some tr => pyRemove plates tr
  | Option.none => .ok plates

/-- The tail of `SequenceDecoding.sample` after the `decode` call (seq.py
lines 325-361): read the plate size, remove the first plate named
`plate_name`, create the new `AncestralPlate`, append it to the plate list
and to `parent_indexing`'s plates, build the stochastic tensor
(`storch.StochasticTensor` is modelled from the spec: a wrapped tensor
marked stochastic, named after the plate, carrying the effective gradient
flag), and advance `variable_index`.  On an exception Python would leave
the earlier in-place mutations behind; the model reports only the
exception, which is faithful for every successful call.  This core takes
the `k_index`, plate list and raw tensor that lines 325-329 extract from
the decode result. -/
def sampleFinalizeCore (st : SeqDecState) (kIndex : Nat) (plates : List Plate)
    (samplesRaw : RawTensor) (parents : List STensor) (requiresGrad : Bool) :
    Except PyErr (STensor × Plate × SeqDecState) :=
  match samplesRaw.shape.get? kIndex with
  | Option.none => .error .indexError
  | some plateSize =>
    match removeFirstNamed st plates with
    | .error e => .error e
    | .ok plates1 =>
      match createPlate st plateSize plates1 with
      | .error e => .error e
      | .ok newPlate =>
        match effectiveGrad requiresGrad st.jointLogProbs with
        | .error e => .error e
        | .ok effGrad =>
          .ok (.mk { samplesRaw with requiresGrad := effGrad } parents
                (plates1 ++ [newPlate]) true (some st.plateName),
            newPlate,
            { st with
              variableIndex := st.variableIndex + 1
              lastPlate := some newPlate
              parentIndexing := st.parentIndexing.map
                (fun pi => pi.withPlates (pi.plates ++ [newPlate])) })

/-- The dispatch of seq.py lines 325-331: when `decode` returned a wrapped
tensor, the plate surgery operates on that tensor's own plate list and its
`plate_dims`; a raw tensor keeps `k_index = 0` and the `plates` argument;
anything else has no `.shape` attribute. -/
def sampleFinalize (st : SeqDecState) (samples : Arg) (parents : List STensor)
    (platesArg : List Plate) (requiresGrad : Bool) :
    Except PyErr (STensor × Plate × SeqDecState) :=
  match samples with
  | .tensor t => sampleFinalizeCore st t.plateDims t.plates t.raw parents requiresGrad
  | .raw r => sampleFinalizeCore st 0 platesArg r parents requiresGrad
  | _ => .error (.attributeError "object has no attribute shape")

/-- Number of plates in a list bearing a given name. -/
def countNamed (ps : List Plate) (nm : String) : Nat :=
  (ps.filter (fun p => p.name == nm)).length

/-- The plate list the tail of `sample` operates on (seq.py lines
326-329): the sampled tensor's own plates when `decode` returned a wrapped
tensor, the `plates` argument otherwise. -/
def effectivePlates (samples : Arg) (platesArg : List Plate) : List Plate :=
  match samples with
  | .tensor t => t.plates
  | _ => platesArg

/-! ### Concrete instances used by the claim theorems and witnesses -/

/-- An ancestral plate of chain `p`, size 2, at a given variable index. -/
def ancP (vi : Nat) : Plate :=
  .anc "p" 2 [] Option.none vi Option.none Option.none Option.none false false

/-- An ancestral plate of chain `p`, variable index 0, but size 3. -/
def ancP3 : Plate :=
  .anc "p" 3 [] Option.none 0 Option.none Option.none Option.none false false

/-- An ancestral plate of chain `p` whose `_in_recursion` flag is set
(as `on_unwrap_tensor` sets it around its internal gather calls). -/
def ancPRec : Plate :=
  .anc "p" 2 [] Option.none 0 Option.none Option.none Option.none true false

/-- A parent tensor that predates a stochastic call. -/
def preParent : STensor := .mk ⟨[1], [5], false⟩ [] [] false Option.none

/-- A wrapped, non-stochastic output tensor whose only parent is
`preParent` — the repair case of `_process_stochastic`. -/
def repairOut : STensor := .mk ⟨[1], [7], false⟩ [preParent] [] false Option.none

/-- A wrapped tensor passed as argument to the stochastic call, which the
argument collection records as a stochastic parent. -/
def stochArg : STensor := .mk ⟨[], [3], false⟩ [] [] false (some "q")

/-- A stochastic-wrapped function returning the already-wrapped
non-stochastic tensor `repairOut`. -/
def repairFn : List Arg → List (String × Arg) → Except PyErr Arg :=
  fun _ _ => .ok (.tensor repairOut)

/-- A wrapped tensor carrying the base plate `a` of size 2 (input for the
`dims` resolution scenario). -/
def dimsArgTensor : STensor :=
  .mk ⟨[2], [0, 0], false⟩ [] [.base "a" 2 [] Option.none] false Option.none

/-- The shape-(4,) tensor of the `right_expand_as` scenario. -/
def vec4 : RawTensor := ⟨[4], [1, 2, 3, 4], false⟩

/-- The shape-(4,3,2) reference of the `right_expand_as` scenario. -/
def ref432 : RawTensor := ⟨[4, 3, 2], List.replicate 24 0, false⟩

/-- A tensor batched along chain `p` at variable index 3. -/
def tensorAt3 : STensor :=
  .mk ⟨[2, 5], List.replicate 10 1, false⟩ []
    [.anc "p" 2 [] Option.none 3 Option.none Option.none Option.none false false]
    false Option.none

/-- The plate resolving chain `p` at variable index 3. -/
def resolverAt3 : Plate :=
  .anc "p" 2 [] Option.none 3 Option.none Option.none Option.none false false

/-- Joint log-probability tensor used by the decoding scenarios. -/
def jlpT : STensor := .mk ⟨[2], [0, 0], false⟩ [] [] false Option.none

/-- A `parent_indexing` tensor used by the decoding witness scenario. -/
def piT : STensor := .mk ⟨[2], [0, 1], false⟩ [] [] false Option.none

/-- A decode result carrying two distinct same-named plates of chain `p`
(the duplicate-plate scenario of `sample`). -/
def dupSamples : STensor :=
  .mk ⟨[2, 2, 5], List.replicate 20 0, false⟩ [] [ancP 0, ancP 0] false Option.none

/-- Decoder state right after `decode`, first variable, for the
duplicate-plate scenario. -/
def dupState : SeqDecState := ⟨"p", 2, some jlpT, Option.none, 0, Option.none⟩

/-- A decode result carrying a single plate of chain `p`. -/
def singleSamples : STensor :=
  .mk ⟨[2, 2, 5], List.replicate 20 0, false⟩ [] [ancP 0] false Option.none

/-- Decoder state right after `decode`, first variable, with a
`parent_indexing` tensor present. -/
def singleState : SeqDecState := ⟨"p", 2, some jlpT, some piT, 0, Option.none⟩

/-- The log-probability tensor stored by the plate the witness scenario
creates: `storch.Tensor(jlp._tensor, [jlp], jlp.plates)` (the trailing
self-reference of the source is a cycle and is not represented). -/
def jlpWrapped : STensor := .mk ⟨[2], [0, 0], false⟩ [jlpT] [] false Option.none

/-- The plate the witness scenario creates. -/
def freshPlate : Plate :=
  .anc "p" 2 [] Option.none 0 Option.none (some piT) (some jlpWrapped) false false

/-- The plate `ancPRec` as `on_collecting_args` leaves it: the equality
relaxation switched on and not switched back off. -/
def relaxedP : Plate :=
  .anc "p" 2 [] Option.none 0 Option.none Option.none Option.none true true

/-- A wrapped function that always raises. -/
def errFn : List Arg → List (String × Arg) → Except PyErr Arg :=
  fun _ _ => .error (.runtimeError "boom")

/-- A wrapper state with two deterministic contexts open and the
stochastic bookkeeping idle. -/
def wst : WrapperState := ⟨false, 2, [], Option.none, [], false⟩

/-! ## Theorems -/

theorem prepareArgsBindCheck_expand_plates :
    prepareArgsBindCheck ["expand_plates"] =
      .error (.typeError "prepare_args got an unexpected keyword argument expand_plates") :=
  rfl

theorem plateEq_refl (p : Plate) : plateEq p p = true := by
  cases p with
  | base nm k ps w => simp [plateEq, basePlateEq]
  | anc nm k ps w vi pp ss lp r ovr =>
    cases ovr <;> simp [plateEq, basePlateEq, Plate.name, Plate.n, Plate.isAncestral]

theorem plateEq_name {a b : Plate} (h : plateEq a b = true) : a.name = b.name := by
  cases a with
  | base nm k ps w =>
    cases b <;>
      · simp only [plateEq, basePlateEq, Plate.name, Bool.and_eq_true, beq_iff_eq] at h ⊢
        exact h.1
  | anc nm k ps w vi pp ss lp r ovr =>
    cases ovr with
    | true =>
      cases b <;>
        · simp only [plateEq, basePlateEq, Plate.name, if_true, beq_iff_eq] at h ⊢
          exact h.symm
    | false =>
      cases b with
      | base nm2 k2 ps2 w2 => simp [plateEq, basePlateEq, Plate.isAncestral] at h
      | anc nm2 k2 ps2 w2 vi2 pp2 ss2 lp2 r2 ovr2 =>
        simp only [plateEq, basePlateEq, Plate.name, Plate.n, Plate.isAncestral,
          Bool.false_eq_true, if_false, Bool.and_eq_true, beq_iff_eq] at h ⊢
        exact h.1.1.1

theorem plateEq_ne_name {a b : Plate} (hovr : a.overrideEquality = false)
    (h : b.name ≠ a.name) : plateEq a b = false := by
  cases a with
  | base nm k ps w =>
    have hb : (nm == b.name) = false := by
      simp only [Plate.name] at h
      exact beq_eq_false_iff_ne.mpr (fun hx => h hx.symm)
    have heq : plateEq (Plate.base nm k ps w) b =
        ((nm == b.name) && (k == b.n)) := rfl
    rw [heq, hb, Bool.false_and]
  | anc nm k ps w vi pp ss lp r ovr =>
    simp only [Plate.overrideEquality] at hovr
    subst hovr
    simp only [Plate.name] at h
    cases b with
    | base nm2 k2 ps2 w2 =>
      simp [plateEq, basePlateEq, Plate.isAncestral]
    | anc nm2 k2 ps2 w2 vi2 pp2 ss2 lp2 r2 ovr2 =>
      simp only [Plate.name] at h
      have hb : (nm == nm2) = false :=
        beq_eq_false_iff_ne.mpr (fun hx => h hx.symm)
      simp [plateEq, basePlateEq, Plate.name, hb]

/-- C1.  The repair case of `_process_stochastic` is supposed to merge the
collected stochastic parents into the output's parent list, but the
`finally` block of `stochastic` has already reset `_stochastic_parents` to
`[]` by the time the outputs are processed, so nothing is merged: the call
succeeds and returns `repairOut` with its parent list unchanged (only
`preParent`), even though argument collection did record `stochArg` as a
stochastic parent. -/
theorem claim1_stochastic_parents_not_merged :
    (runStochastic "sample" repairFn {} [.tensor stochArg] []).result =
      .ok (.tensor repairOut) ∧
    (prepareArgs [.tensor stochArg] [] {}).map Prepared.parents = .ok [stochArg] :=
  ⟨rfl, rfl⟩

/-- C5 (counterexample).  Two same-named `AncestralPlate`s with equal
`variable_index` 0 but different sizes (2 and 3) compare unequal outside
any relaxation window, because `AncestralPlate.__eq__` also requires the
base rule (same name and same size): `A == B` does not hold although
`A.variable_index == B.variable_index`. -/
theorem claim5_counterexample :
    plateEq (ancP 0) ancP3 = false ∧
    (ancP 0).variableIndex = ancP3.variableIndex ∧
    (ancP 0).name = ancP3.name ∧
    (ancP 0).overrideEquality = false ∧ ancP3.overrideEquality = false :=
  ⟨rfl, rfl, rfl, rfl, rfl⟩

/-- C5 (amended).  For two `AncestralPlate`s with the same name, outside
the re-entrant relaxation window, `A == B` holds iff both the sizes and
the variable indices agree; and `A == C` is false for any plate `C` with a
different name, regardless of indices. -/
theorem claim5_amended (A B C : Plate) (hA : A.isAncestral = true)
    (hB : B.isAncestral = true) (hname : A.name = B.name)
    (hovr : A.overrideEquality = false) :
    (plateEq A B = true ↔ (A.n = B.n ∧ A.variableIndex = B.variableIndex)) ∧
    (C.name ≠ A.name → plateEq A C = false) := by
  cases A with
  | base nm k ps w => simp [Plate.isAncestral] at hA
  | anc nm k ps w vi pp ss lp r ovr =>
    cases B with
    | base nm2 k2 ps2 w2 => simp [Plate.isAncestral] at hB
    | anc nm2 k2 ps2 w2 vi2 pp2 ss2 lp2 r2 ovr2 =>
      simp only [Plate.overrideEquality] at hovr
      subst hovr
      simp only [Plate.name] at hname
      subst hname
      constructor
      · simp [plateEq, basePlateEq, Plate.name, Plate.n, Plate.isAncestral,
          Plate.variableIndex]
      · intro hC
        exact plateEq_ne_name rfl hC

/-- C5 (witness for the amended claim): plates of chain `p`, size 2,
variable indices 0 and 1, and a base plate named `q`. -/
theorem claim5_amended_witness :
    (plateEq (ancP 0) (ancP 1) = true ↔
      ((ancP 0).n = (ancP 1).n ∧ (ancP 0).variableIndex = (ancP 1).variableIndex)) ∧
    ((Plate.base "q" 2 [] Option.none).name ≠ (ancP 0).name →
      plateEq (ancP 0) (.base "q" 2 [] Option.none) = false) :=
  claim5_amended (ancP 0) (ancP 1) (.base "q" 2 [] Option.none) rfl rfl rfl rfl

/-- C6.  With a stochastic context active, a deterministic-wrapped call
raises immediately; with a stochastic or deterministic context open, a
stochastic-wrapped call raises immediately.  In both cases the error is
returned to the caller, the state is untouched, and the wrapped function
is invoked zero times. -/
theorem claim6_nesting_guards (fnName : String) (reducePlates : Option (List String))
    (opts : PrepOptions) (fn : List Arg → List (String × Arg) → Except PyErr Arg)
    (st : WrapperState) (args : List Arg) (kwargs : List (String × Arg)) :
    (st.contextStochastic = true →
      runDeterministic fnName reducePlates opts fn st args kwargs =
        ⟨.error (.notImplementedError
          "It is currently not allowed to open a deterministic context in a stochastic context"),
          st, 0⟩) ∧
    (st.contextStochastic = true ∨ 0 < st.contextDeterministic →
      runStochastic fnName fn st args kwargs =
        ⟨.error (.runtimeError
          "Cannot call storch.stochastic from within a stochastic or deterministic context."),
          st, 0⟩) := by
  constructor
  · intro h
    unfold runDeterministic
    simp [h]
  · intro h
    unfold runStochastic
    rcases h with h | h
    · simp [h]
    · simp [h]

/-- C6 (witness): state with the stochastic flag set and one deterministic
context open. -/
theorem claim6_nesting_guards_witness :
    runDeterministic "f" Option.none {} errFn ⟨true, 1, [], Option.none, [], false⟩ [] [] =
      ⟨.error (.notImplementedError
        "It is currently not allowed to open a deterministic context in a stochastic context"),
        ⟨true, 1, [], Option.none, [], false⟩, 0⟩ ∧
    runStochastic "f" errFn ⟨true, 1, [], Option.none, [], false⟩ [] [] =
      ⟨.error (.runtimeError
        "Cannot call storch.stochastic from within a stochastic or deterministic context."),
        ⟨true, 1, [], Option.none, [], false⟩, 0⟩ :=
  ⟨(claim6_nesting_guards "f" Option.none {} errFn
      ⟨true, 1, [], Option.none, [], false⟩ [] []).1 rfl,
    (claim6_nesting_guards "f" Option.none {} errFn
      ⟨true, 1, [], Option.none, [], false⟩ [] []).2 (Or.inl rfl)⟩

/-- C7.  The `dims` resolution of `_prepare_args` never succeeds: with a
tensor argument carrying the recognized plate `a` and `dims=["a"]`, the
loop appends the unbound `i_dim` (a `NameError`); and when `dim="a"` binds
`i_dim` first, the unconditional raise fires a
`ValueError("Missing plate dimensiona")` even though the named plate was
found.  The claimed behaviour — substitute the resolved position and raise
only for missing names — never happens. -/
theorem claim7_dims_resolution_raises :
    prepareArgs [.tensor dimsArgTensor] [] { dims := some ["a"] } =
      .error (.nameError "name i_dim is not defined") ∧
    prepareArgs [.tensor dimsArgTensor] [] { dim := some "a", dims := some ["a"] } =
      .error (.valueError "Missing plate dimensiona") :=
  ⟨rfl, rfl⟩

/-- C8.  Every call of `right_expand_as` raises: its decorator
`@storch.deterministic(l_broadcast=False)` forwards the keyword
`l_broadcast` to `_prepare_args`, which does not accept it, so Python's
argument binding raises `TypeError` before the expansion runs.  The
function body itself (second conjunct) would produce the claimed
`(4,3,2)`-shaped broadcast of the four values. -/
theorem claim8_right_expand_as :
    (rightExpandAs {} (.raw vec4) (.raw ref432)).result =
      .error (.typeError "prepare_args got an unexpected keyword argument l_broadcast") ∧
    rawRightExpand vec4 ref432 =
      .ok ⟨[4, 3, 2],
        [1, 1, 1, 1, 1, 1, 2, 2, 2, 2, 2, 2, 3, 3, 3, 3, 3, 3, 4, 4, 4, 4, 4, 4],
        false⟩ :=
  ⟨rfl, rfl⟩

/-- C9 (counterexample).  For a plate mid-resolution (`_in_recursion`
set), `on_collecting_args` switches `_override_equality` on and returns
without switching it back: immediately after the call the plate still
compares equal (name-only) to a same-named plate with a different
variable index, contradicting "strict equality is restored". -/
theorem claim9_counterexample :
    onCollectingArgs ancPRec [ancPRec] = .ok (relaxedP, true) ∧
    plateEq relaxedP (ancP 1) = true ∧
    relaxedP.variableIndex ≠ (ancP 1).variableIndex ∧
    relaxedP.name = (ancP 1).name :=
  ⟨rfl, rfl, by decide, rfl⟩

/-- C9 (amended).  `on_collecting_args` leaves a plate that is not
mid-resolution completely unchanged (so strict equality indeed still holds
after the call), but for a plate whose `_in_recursion` flag is set it
activates the name-only equality relaxation and leaves it active after
returning — the relaxation is scoped to the enclosing `on_unwrap_tensor`
resolution (which clears it after each internal gather), not to the
filtering call itself. -/
theorem claim9_amended (nm : String) (k : Nat) (ps : List Plate)
    (w : Option RawTensor) (vi : Nat) (pp : Option Plate) (ss lp : Option STensor)
    (r ovr : Bool) (plates : List Plate) (p' : Plate) (keep : Bool)
    (h : onCollectingArgs (.anc nm k ps w vi pp ss lp r ovr) plates = .ok (p', keep)) :
    (r = false → p' = .anc nm k ps w vi pp ss lp r ovr) ∧
    (r = true → p'.overrideEquality = true) := by
  cases hscan : collectScan nm vi plates with
  | error e => simp [onCollectingArgs, hscan, Except.map] at h
  | ok b =>
    simp only [onCollectingArgs, hscan, Except.map, Except.ok.injEq,
      Prod.mk.injEq] at h
    obtain ⟨hp, _⟩ := h
    constructor
    · intro hr
      subst hr
      simp only [Bool.false_eq_true, if_false] at hp
      exact hp.symm
    · intro hr
      subst hr
      rw [← hp]
      rfl

/-- C9 (witness for the amended claim): the mid-resolution plate
`ancPRec` filtered against itself. -/
theorem claim9_amended_witness :
    ((true : Bool) = false →
      relaxedP = .anc "p" 2 [] Option.none 0 Option.none Option.none Option.none true false) ∧
    ((true : Bool) = true → relaxedP.overrideEquality = true) :=
  claim9_amended "p" 2 [] Option.none 0 Option.none Option.none Option.none true false
    [ancPRec] relaxedP true rfl

/-- C2.  When the wrapped function raises, both wrappers leave the
process-wide state exactly as they found it: `_deterministic` restores
the nesting counter in its `finally` and touches nothing else, and
`stochastic` resets the four stochastic fields in its `finally` — which
restores the entry state because the guard guarantees the stochastic flag
was clear and, outside any stochastic call, the saved parents, plate links
and context name are at their idle values (the only code that sets them
always resets them before returning). -/
theorem claim2_context_restoration (fnName : String)
    (reducePlates : Option (List String)) (opts : PrepOptions)
    (fn : List Arg → List (String × Arg) → Except PyErr Arg)
    (st : WrapperState) (args fnArgs : List Arg)
    (kwargs fnKwargs : List (String × Arg)) (e : PyErr)
    (hfn : ∀ a k, fn a k = .error e)
    (hidle : st.stochasticParents = [] ∧ st.plateLinks = [] ∧
      st.contextName = Option.none) :
    (runDeterministic fnName reducePlates opts fn st args kwargs).result = .error e →
      (runDeterministic fnName reducePlates opts fn st args kwargs).state = st ∧
      (runStochastic fnName fn st fnArgs fnKwargs).state = st := by
  intro _
  obtain ⟨cs, cd, sp, cn, pl, ig⟩ := st
  obtain ⟨h1, h2, h3⟩ := hidle
  simp only [WrapperState.stochasticParents, WrapperState.plateLinks,
    WrapperState.contextName] at h1 h2 h3
  subst h1
  subst h2
  subst h3
  constructor
  · unfold runDeterministic
    cases cs with
    | true => simp
    | false =>
      cases hp : prepareArgs args kwargs opts with
      | error e' => simp [hp]
      | ok prep =>
        by_cases hpe : prep.parents.isEmpty
        · simp [hp, hpe]
        · simp [hp, hpe, hfn]
  · unfold runStochastic
    cases cs with
    | true => simp
    | false =>
      by_cases hcd : 0 < cd
      · simp [hcd]
      · cases hp : prepareArgs fnArgs fnKwargs {} with
        | error e' => simp [hcd, hp]
        | ok prep => simp [hcd, hp, hfn]

/-- C2 (witness): a nested-clean state, one wrapped-tensor argument, a
wrapped function that always raises. -/
theorem claim2_context_restoration_witness :
    (runDeterministic "f" Option.none {} errFn
      ⟨false, 0, [], Option.none, [], false⟩ [.tensor stochArg] []).result =
        .error (.runtimeError "boom") ∧
    (runDeterministic "f" Option.none {} errFn
      ⟨false, 0, [], Option.none, [], false⟩ [.tensor stochArg] []).state =
        ⟨false, 0, [], Option.none, [], false⟩ ∧
    (runStochastic "f" errFn
      ⟨false, 0, [], Option.none, [], false⟩ [.tensor stochArg] []).state =
        ⟨false, 0, [], Option.none, [], false⟩ := by
  refine ⟨rfl, ?_⟩
  have h := claim2_context_restoration "f" Option.none {} errFn
    ⟨false, 0, [], Option.none, [], false⟩ [.tensor stochArg] [.tensor stochArg]
    [] [] (.runtimeError "boom") (fun _ _ => rfl) ⟨rfl, rfl, rfl⟩ rfl
  exact h

/-- The scan of `on_collecting_args`, on a list whose same-named plates
are all ancestral, computes exactly the vote "no same-named plate with a
strictly higher variable index is present". -/
theorem collectScan_eq (nm : String) (vi : Nat) (l : List Plate)
    (hwf : ∀ q ∈ l, q.name = nm → q.isAncestral = true) :
    collectScan nm vi l =
      .ok (!(l.any (fun q => q.name == nm && decide (vi < q.variableIndex)))) := by
  induction l with
  | nil => rfl
  | cons p rest ih =>
    have hwf' : ∀ q ∈ rest, q.name = nm → q.isAncestral = true :=
      fun q hq => hwf q (List.mem_cons_of_mem _ hq)
    by_cases hn : (p.name == nm) = true
    · have hanc : p.isAncestral = true :=
        hwf p (List.mem_cons_self _ _) (beq_iff_eq.mp hn)
      by_cases hvi : vi < p.variableIndex
      · simp [collectScan, hn, hanc, hvi]
      · simp [collectScan, hn, hanc, hvi, ih hwf']
    · simp [collectScan, hn, ih hwf']

/-- The elementwise processing of the `_prepare_args` plate filter: on a
sublist of plates that are all ancestral and none mid-resolution, the
filter keeps exactly the plates without a same-named higher-index rival
and mutates nothing. -/
theorem prepFilterGo (plates l : List Plate)
    (hl : ∀ p ∈ l, p.isAncestral = true ∧ p.inRecursion = false)
    (hanc : ∀ q ∈ plates, q.isAncestral = true) :
    prepFilterPlates.go plates l =
      .ok (l.filter (fun p =>
        !(plates.any (fun q =>
          q.name == p.name && decide (p.variableIndex < q.variableIndex))))) := by
  induction l with
  | nil => rfl
  | cons p rest ih =>
    obtain ⟨hpanc, hpnr⟩ := hl p (List.mem_cons_self _ _)
    have ihr := ih (fun q hq => hl q (List.mem_cons_of_mem _ hq))
    cases p with
    | base nm k ps w => simp [Plate.isAncestral] at hpanc
    | anc nm k ps w vi pp ss lp r ovr =>
      simp only [Plate.inRecursion] at hpnr
      subst hpnr
      have hscan := collectScan_eq nm vi plates
        (fun q hq _ => hanc q hq)
      simp only [prepFilterPlates.go, onCollectingArgs, hscan, Except.map,
        Bool.false_eq_true, if_false, Except.bind, bind, ihr,
        List.filter_cons]
      simp [Plate.name, Plate.variableIndex]

/-- C3.  Given the full set of plates collected from an operation's
arguments — all of them `AncestralPlate`s and none mid-resolution — the
`_prepare_args` filter retains exactly the plates for which no same-named
plate with a strictly higher `variable_index` is collected: each plate
excludes itself iff such a rival is present. -/
theorem claim3_collection_filter (plates : List Plate)
    (hanc : plates.all (fun p => p.isAncestral) = true)
    (hnr : plates.all (fun p => !p.inRecursion) = true) :
    prepFilterPlates plates =
      .ok (plates.filter (fun p =>
        !(plates.any (fun q =>
          q.name == p.name && decide (p.variableIndex < q.variableIndex))))) := by
  have hanc' : ∀ q ∈ plates, q.isAncestral = true :=
    fun q hq => List.all_eq_true.mp hanc q hq
  have hnr' : ∀ q ∈ plates, (!q.inRecursion) = true :=
    fun q hq => List.all_eq_true.mp hnr q hq
  have hl : ∀ p ∈ plates, p.isAncestral = true ∧ p.inRecursion = false := by
    intro p hp
    refine ⟨hanc' p hp, ?_⟩
    have := hnr' p hp
    simpa using this
  exact prepFilterGo plates plates hl hanc'

/-- C3 (witness): chain `p` at variable indices 0, 1, 2 all collected at
once — only the index-2 instance survives. -/
theorem claim3_collection_filter_witness :
    prepFilterPlates [ancP 0, ancP 1, ancP 2] = .ok [ancP 2] :=
  (claim3_collection_filter [ancP 0, ancP 1, ancP 2] rfl rfl).trans (by rfl)

/-- The scan of `on_unwrap_tensor` returns the tensor unchanged when the
first same-named plate in the list is ancestral at the same variable
index. -/
theorem unwrapScan_same_vi (selfPlate : Plate) (nm : String) (vi : Nat)
    (tensor : STensor) (l : List Plate) (p : Plate)
    (hfind : l.find? (fun q => q.name == nm) = some p)
    (hanc : p.isAncestral = true) (hvi : p.variableIndex = vi) :
    unwrapScan selfPlate nm vi tensor l = .ok tensor := by
  induction l with
  | nil => simp [List.find?] at hfind
  | cons q rest ih =>
    by_cases hq : (q.name == nm) = true
    · simp only [List.find?, hq] at hfind
      have hpq : p = q := by
        cases hfind
        rfl
      subst hpq
      simp [unwrapScan, hq, hanc, hvi]
    · simp only [List.find?, Bool.not_eq_true] at hfind
      rw [Bool.not_eq_true] at hq
      rw [hq] at hfind
      simp only [unwrapScan, hq]
      simp [ih hfind]

/-- C4.  `on_unwrap_tensor` is idempotent at the current step: when the
tensor's same-named multi-dimensional plate (the first one the loop meets)
is an `AncestralPlate` whose `variable_index` equals that of the resolving
plate, the tensor is returned unchanged — same raw values, plates,
parents.  (Inside a re-entrant window the tensor is likewise returned
unchanged.) -/
theorem claim4_unwrap_idempotent (nm : String) (k : Nat) (ps : List Plate)
    (w : Option RawTensor) (vi : Nat) (pp : Option Plate) (ss lp : Option STensor)
    (r ovr : Bool) (tensor : STensor) (p : Plate)
    (hfind : (STensor.multiDimPlates tensor).find? (fun q => q.name == nm) = some p)
    (hanc : p.isAncestral = true) (hvi : p.variableIndex = vi) :
    onUnwrapTensor (.anc nm k ps w vi pp ss lp r ovr) tensor = .ok tensor := by
  cases r with
  | true => simp [onUnwrapTensor]
  | false =>
    simp only [onUnwrapTensor, Bool.false_eq_true, if_false]
    exact unwrapScan_same_vi _ nm vi tensor _ p hfind hanc hvi

/-- C4 (witness): a tensor batched along chain `p` at variable index 3,
resolved by the chain's plate at the same index. -/
theorem claim4_unwrap_idempotent_witness :
    onUnwrapTensor resolverAt3 tensorAt3 = .ok tensorAt3 :=
  claim4_unwrap_idempotent "p" 2 [] Option.none 3 Option.none Option.none
    Option.none false false tensorAt3
    (.anc "p" 2 [] Option.none 3 Option.none Option.none Option.none false false)
    rfl rfl rfl

theorem except_bind_ok {α β : Type} {x : Except PyErr α} {f : α → Except PyErr β}
    {b : β} (h : (x >>= f) = .ok b) : ∃ a, x = .ok a ∧ f a = .ok b := by
  cases x with
  | error e => simp [Bind.bind, Except.bind] at h
  | ok a => exact ⟨a, rfl, by simpa [Bind.bind, Except.bind] using h⟩

theorem countNamed_append (l1 l2 : List Plate) (nm : String) :
    countNamed (l1 ++ l2) nm = countNamed l1 nm + countNamed l2 nm := by
  simp [countNamed, List.filter_append]

theorem countNamed_zero_of_find_none {l : List Plate} {nm : String}
    (h : l.find? (fun p => p.name == nm) = Option.none) : countNamed l nm = 0 := by
  have hall := List.find?_eq_none.mp h
  have : l.filter (fun p => p.name == nm) = [] := by
    rw [List.filter_eq_nil_iff]
    intro a ha
    exact hall a ha
  simp [countNamed, this]

/-- `Plate.__eq__` can only hold between same-named plates, whatever the
relaxation flags: every branch of the comparison requires equal names. -/
theorem plateEq_false_of_ne_name {a b : Plate} (h : b.name ≠ a.name) :
    plateEq a b = false := by
  cases a with
  | base nm k ps w => exact plateEq_ne_name rfl h
  | anc nm k ps w vi pp ss lp r ovr =>
    cases ovr with
    | false => exact plateEq_ne_name rfl h
    | true =>
      simp only [Plate.name] at h
      have hb : (b.name == nm) = false := beq_eq_false_iff_ne.mpr h
      simpa [plateEq] using hb

/-- Removing the result of `find?` by Python list equality removes exactly
one plate with the searched name: every earlier element has a different
name, and `plateEq` holds only between same-named plates. -/
theorem pyRemove_count {l : List Plate} {tr : Plate} {nm : String} {l' : List Plate}
    (hfind : l.find? (fun p => p.name == nm) = some tr)
    (hrem : pyRemove l tr = .ok l') :
    countNamed l' nm + 1 = countNamed l nm := by
  induction l generalizing l' with
  | nil => simp [List.find?] at hfind
  | cons q rest ih =>
    by_cases hq : (q.name == nm) = true
    · simp only [List.find?, hq] at hfind
      have htr : tr = q := by
        cases hfind
        rfl
      subst htr
      rw [pyRemove, if_pos (plateEq_refl tr)] at hrem
      cases hrem
      simp [countNamed, List.filter_cons, hq]
    · rw [Bool.not_eq_true] at hq
      simp only [List.find?, hq] at hfind
      have htrname : (tr.name == nm) = true := by
        have hx := List.find?_some hfind
        exact hx
      have hne : plateEq q tr = false := by
        apply plateEq_false_of_ne_name
        intro hx
        simp [hx, hq] at htrname
      rw [pyRemove, if_neg (by simp [hne])] at hrem
      cases hrm : pyRemove rest tr with
      | error e =>
        rw [hrm] at hrem
        simp [Except.map] at hrem
      | ok l2 =>
        rw [hrm] at hrem
        simp only [Except.map, Except.ok.injEq] at hrem
        subst hrem
        have hrec := ih hfind hrm
        simp only [countNamed, List.filter_cons, hq, Bool.false_eq_true,
          if_false] at hrec ⊢
        omega

/-- A successfully constructed `AncestralPlate` carries the given chain
name. -/
theorem mkAncestralPlate_name {nm : String} {n : Nat} {parents : List Plate}
    {vi : Nat} {pp : Option Plate} {ss lpo : Option STensor}
    {w : Option RawTensor} {p : Plate}
    (h : mkAncestralPlate nm n parents vi pp ss lpo w = .ok p) :
    p.name = nm ∧ p.isAncestral = true := by
  unfold mkAncestralPlate at h
  cases ha : ancestralAssert n vi pp with
  | error e => rw [ha] at h; cases h
  | ok u =>
    rw [ha] at h
    cases lpo with
    | none => cases h
    | some lp =>
      simp only [Except.ok.injEq] at h
      subst h
      exact ⟨rfl, rfl⟩

/-- `pyRemove` succeeds on any list containing its target. -/
theorem pyRemove_ok_of_mem {l : List Plate} {x : Plate} (h : x ∈ l) :
    ∃ l', pyRemove l x = .ok l' := by
  induction l with
  | nil => cases h
  | cons q rest ih =>
    by_cases hq : plateEq q x = true
    · exact ⟨rest, by rw [pyRemove, if_pos hq]⟩
    · have hx : x ∈ rest := by
        cases h with
        | head => exact absurd (plateEq_refl x) hq
        | tail _ hmem => exact hmem
      obtain ⟨l', hl'⟩ := ih hx
      exact ⟨q :: l', by rw [pyRemove, if_neg hq, hl']; rfl⟩

/-- Removing the first same-named plate from a list carrying at most one
leaves a list carrying none. -/
theorem removeFirstNamed_count {st : SeqDecState} {plates plates1 : List Plate}
    (hdup : countNamed plates st.plateName ≤ 1)
    (h : removeFirstNamed st plates = .ok plates1) :
    countNamed plates1 st.plateName = 0 := by
  unfold removeFirstNamed at h
  cases hfind : plates.find? (fun p => p.name == st.plateName) with
  | none =>
    rw [hfind] at h
    cases h
    exact countNamed_zero_of_find_none hfind
  | some tr =>
    rw [hfind] at h
    have hc := pyRemove_count hfind h
    omega

/-- The plate bookkeeping of the tail of `sample`, on a plate list with at
most one same-named plate: the removal of the first same-named plate
leaves none, and the fresh plate appended at the end is then the only one
bearing the chain name. -/
theorem sampleFinalizeCore_amended (st : SeqDecState) (kIndex : Nat)
    (plates : List Plate) (samplesRaw : RawTensor) (parents : List STensor)
    (rg : Bool) (t : STensor) (np : Plate) (st' : SeqDecState)
    (hdup : countNamed plates st.plateName ≤ 1)
    (hrun : sampleFinalizeCore st kIndex plates samplesRaw parents rg =
      .ok (t, np, st')) :
    countNamed t.plates st.plateName = 1 ∧
    np.name = st.plateName ∧
    t.plates.getLast? = some np ∧
    st'.parentIndexing = st.parentIndexing.map
      (fun pi => pi.withPlates (pi.plates ++ [np])) := by
  unfold sampleFinalizeCore at hrun
  split at hrun
  · cases hrun
  · rename_i plateSize hps
    split at hrun
    · cases hrun
    · rename_i plates1 hrem
      split at hrun
      · cases hrun
      · rename_i newPlate hmk
        split at hrun
        · cases hrun
        · rename_i effGrad heg
          simp only [Except.ok.injEq, Prod.mk.injEq] at hrun
          obtain ⟨ht, hnp, hst⟩ := hrun
          subst ht
          subst hnp
          subst hst
          have hname : newPlate.name = st.plateName :=
            (mkAncestralPlate_name (by
              unfold createPlate at hmk
              exact hmk)).1
          have hcount1 : countNamed plates1 st.plateName = 0 :=
            removeFirstNamed_count hdup hrem
          refine ⟨?_, hname, ?_, rfl⟩
          · simp only [STensor.plates, countNamed_append, hcount1]
            simp [countNamed, hname]
          · simp only [STensor.plates]
            exact List.getLast?_concat _

/-- C10 (counterexample).  A successful `sample` whose decode result
carries two same-named plates of chain `p` (variable index 0 twice)
returns a stochastic tensor whose plate list holds TWO plates named `p`:
line 333-340 removes only the first same-named plate before appending the
fresh one, so the plate list does not contain exactly one plate named
`plate_name`. -/
theorem claim10_counterexample :
    (sampleFinalize dupState (.tensor dupSamples) [] [] false).map
      (fun r => (countNamed r.1.plates "p", r.2.1.name)) = .ok (2, "p") := rfl

/-- C10 (amended).  `sample` removes only the FIRST same-named plate of
the decode result before appending the fresh `AncestralPlate`; therefore,
whenever the decode result's plate list carries at most one plate named
`plate_name` (the situation the plate filter normally guarantees), the
returned stochastic tensor's plate list contains exactly one plate named
`plate_name`, namely the freshly created plate appended at the end, and
when `parent_indexing` exists that same plate is appended to its plate
list. -/
theorem claim10_amended (st : SeqDecState) (samples : Arg)
    (parents : List STensor) (platesArg : List Plate) (rg : Bool)
    (t : STensor) (np : Plate) (st' : SeqDecState)
    (hdup : countNamed (effectivePlates samples platesArg) st.plateName ≤ 1)
    (hrun : sampleFinalize st samples parents platesArg rg = .ok (t, np, st')) :
    countNamed t.plates st.plateName = 1 ∧
    np.name = st.plateName ∧
    t.plates.getLast? = some np ∧
    st'.parentIndexing = st.parentIndexing.map
      (fun pi => pi.withPlates (pi.plates ++ [np])) := by
  cases samples with
  | tensor ts =>
    simp only [effectivePlates] at hdup
    simp only [sampleFinalize] at hrun
    exact sampleFinalizeCore_amended st ts.plateDims ts.plates ts.raw parents rg
      t np st' hdup hrun
  | raw r =>
    simp only [effectivePlates] at hdup
    simp only [sampleFinalize] at hrun
    exact sampleFinalizeCore_amended st 0 platesArg r parents rg t np st' hdup hrun
  | str s => simp [sampleFinalize] at hrun
  | list xs => simp [sampleFinalize] at hrun
  | dict xs => simp [sampleFinalize] at hrun
  | none => simp [sampleFinalize] at hrun
  | int i => simp [sampleFinalize] at hrun

/-- C10 (witness for the amended claim): a decode result with the single
plate `p` (index 0) and a `parent_indexing` tensor present. -/
theorem claim10_amended_witness :
    countNamed (STensor.mk ⟨[2, 2, 5], List.replicate 20 0, false⟩ []
      [freshPlate] true (some "p")).plates "p" = 1 ∧
    freshPlate.name = "p" ∧
    (STensor.mk ⟨[2, 2, 5], List.replicate 20 0, false⟩ []
      [freshPlate] true (some "p")).plates.getLast? = some freshPlate ∧
    (⟨"p", 2, some jlpT,
      some (STensor.mk ⟨[2], [0, 1], false⟩ [] [freshPlate] false Option.none),
      1, some freshPlate⟩ : SeqDecState).parentIndexing =
      singleState.parentIndexing.map
        (fun pi => pi.withPlates (pi.plates ++ [freshPlate])) :=
  claim10_amended singleState (.tensor singleSamples) [] [] false
    (.mk ⟨[2, 2, 5], List.replicate 20 0, false⟩ [] [freshPlate] true (some "p"))
    freshPlate
    ⟨"p", 2, some jlpT,
      some (.mk ⟨[2], [0, 1], false⟩ [] [freshPlate] false Option.none),
      1, some freshPlate⟩
    (by decide) rfl

end Storchastic
